import Mathlib

/-!
Shallow embedding of the `redundant_guards` static-analysis pass
(`src/tools/clippy/clippy_lints/src/matches/redundant_guards.rs`) and proofs
about its guard-shape classifier, binding resolution, pattern-expressibility
check and diagnostic emission.
-/

set_option maxHeartbeats 1000000

namespace RedundantGuards

/-- A source span.  `lo`/`hi` are byte offsets; `callsite` is the originating
call-site range when the span comes from a macro expansion (models
`rustc_span::Span` with its expansion info). -/
structure Span where
  lo : Nat
  hi : Nat
  callsite : Option (Nat × Nat) := none
deriving DecidableEq, Repr

/-- `Span::source_callsite`: walk to the originating call-site span. -/
def Span.sourceCallsite (s : Span) : Span :=
  match s.callsite with
  | none => s
  | some (l, h) => ⟨l, h, none⟩

/-- `Span::from_expansion`. -/
def Span.fromExpansion (s : Span) : Bool := s.callsite.isSome

/-- `Span::shrink_to_hi`: the empty span at the end of `s`. -/
def Span.shrinkToHi (s : Span) : Span := { s with lo := s.hi }

/-- `Span::with_lo`. -/
def Span.withLo (s : Span) (l : Nat) : Span := { s with lo := l }

/-- `rustc_errors::Applicability` (the confidence tier of a suggestion). -/
inductive Applicability where
  | machineApplicable
  | maybeIncorrect
  | hasPlaceholders
  | unspecified
deriving DecidableEq, Repr

/-- `rustc_hir::MatchSource`: whether a `match` is written in the source or
produced by a desugaring. -/
inductive MatchSource where
  | normal
  | desugared
deriving DecidableEq, Repr

/-- The binary operators relevant to the pass (`rustc_hir::BinOpKind`). -/
inductive BinOpKind where
  | eq
  | ne
  | add
  | otherOp
deriving DecidableEq, Repr

/-- `rustc_ast::LitKind`, collapsed to what the pass distinguishes:
floating-point literals versus everything else. -/
inductive LitKind where
  | float
  | int (n : Nat)
  | otherLit
deriving DecidableEq, Repr

/-- The `rustc_hir::def::DefKind`s the pass distinguishes. -/
inductive DefKind where
  | ctor
  | structK
  | enumK
  | fnK
  | otherK
deriving DecidableEq, Repr

/-- `rustc_hir::def::Res`: what a path resolves to. -/
inductive Res where
  | localVar (id : Nat)
  | defR (k : DefKind)
  | errR
deriving DecidableEq, Repr

mutual

/-- `rustc_hir::Pat`: a pattern node with its span. -/
inductive Pat where
  | mk (kind : PatKind) (span : Span)

/-- `rustc_hir::PatKind`, restricted to the structure the pass inspects. -/
inductive PatKind where
  | wild
  | binding (hirId : Nat) (sub : OptPat)
  | tupleStruct (subs : Pats)
  | structP (fields : Pats)
  | orP (subs : Pats)
  | litP
  | otherP (subs : Pats)

/-- An optional sub-pattern (in the same mutual block, for recursion). -/
inductive OptPat where
  | noneP
  | someP (p : Pat)

/-- A list of patterns (in the same mutual block, for recursion). -/
inductive Pats where
  | nil
  | cons (head : Pat) (tail : Pats)

end

def Pat.kind : Pat → PatKind
  | .mk k _ => k

def Pat.span : Pat → Span
  | .mk _ s => s

mutual

/-- `rustc_hir::Expr`: an expression node with its kind, span and (typeck)
type.  Types are opaque identifiers compared for equality, modelling
`cx.typeck_results().expr_ty`. -/
inductive Expr where
  | mk (kind : ExprKind) (span : Span) (ty : Nat)

/-- `rustc_hir::ExprKind`, restricted to the tags the pass distinguishes;
everything else is `otherE` with its child expressions. -/
inductive ExprKind where
  | matchE (scrutinee : Expr) (arms : Arms) (src : MatchSource)
  | binary (op : BinOpKind) (lhs : Expr) (rhs : Expr)
  | call (callee : Expr) (args : Exprs)
  | path (res : Res)
  | lit (lk : LitKind)
  | constBlock
  | addrOf (e : Expr)
  | array (es : Exprs)
  | tup (es : Exprs)
  | structLit (es : Exprs)
  | otherE (es : Exprs)

/-- A list of expressions (same mutual block, for recursion). -/
inductive Exprs where
  | nil
  | cons (head : Expr) (tail : Exprs)

/-- `rustc_hir::Arm`: pattern, optional guard, body. -/
inductive Arm where
  | mk (pat : Pat) (guard : OptGuard) (body : Expr)

/-- A list of arms (same mutual block, for recursion). -/
inductive Arms where
  | nil
  | cons (head : Arm) (tail : Arms)

/-- `rustc_hir::Guard`: a boolean guard `if e` or a pattern guard
`if let pat = init`. -/
inductive Guard where
  | ifG (e : Expr)
  | ifLet (l : LetE)

/-- An optional guard (same mutual block, for recursion). -/
inductive OptGuard where
  | noneG
  | someG (g : Guard)

/-- `rustc_hir::Let` as used in a pattern guard. -/
inductive LetE where
  | mk (pat : Pat) (init : Expr) (span : Span)

end

def Expr.kind : Expr → ExprKind
  | .mk k _ _ => k

def Expr.span : Expr → Span
  | .mk _ s _ => s

def Expr.ty : Expr → Nat
  | .mk _ _ t => t

def Arm.pat : Arm → Pat
  | .mk p _ _ => p

def Arm.guard : Arm → OptGuard
  | .mk _ g _ => g

def Arm.body : Arm → Expr
  | .mk _ _ b => b

def LetE.pat : LetE → Pat
  | .mk p _ _ => p

def LetE.init : LetE → Expr
  | .mk _ i _ => i

def LetE.span : LetE → Span
  | .mk _ _ s => s

/-- `clippy_utils::path_to_local`: the `HirId` of the local binding a path
expression resolves to, if any. -/
def pathToLocal : Expr → Option Nat
  | .mk (.path (.localVar id)) _ _ => some id
  | _ => none

mutual

/-- `clippy_utils::visitors::is_local_used`, specialised to one expression
tree: does any sub-expression resolve to the local `id`
(`path_to_local_id`)?  Mirrors the HIR walk of `for_each_expr_with_closures`:
match scrutinees, arm guards and bodies, call callees and arguments, and all
other child expressions are visited. -/
def usesLocal (id : Nat) : Expr → Bool
  | .mk k _ _ => kindUsesLocal id k

def kindUsesLocal (id : Nat) : ExprKind → Bool
  | .matchE s arms _ => usesLocal id s || armsUseLocal id arms
  | .binary _ l r => usesLocal id l || usesLocal id r
  | .call c args => usesLocal id c || exprsUseLocal id args
  | .path r =>
    match r with
    | .localVar i => i == id
    | _ => false
  | .lit _ => false
  | .constBlock => false
  | .addrOf e => usesLocal id e
  | .array es => exprsUseLocal id es
  | .tup es => exprsUseLocal id es
  | .structLit es => exprsUseLocal id es
  | .otherE es => exprsUseLocal id es

def exprsUseLocal (id : Nat) : Exprs → Bool
  | .nil => false
  | .cons e es => usesLocal id e || exprsUseLocal id es

def armsUseLocal (id : Nat) : Arms → Bool
  | .nil => false
  | .cons a as => armUsesLocal id a || armsUseLocal id as

def armUsesLocal (id : Nat) : Arm → Bool
  | .mk _ g b => optGuardUsesLocal id g || usesLocal id b

def optGuardUsesLocal (id : Nat) : OptGuard → Bool
  | .noneG => false
  | .someG (.ifG e) => usesLocal id e
  | .someG (.ifLet l) => letUsesLocal id l

def letUsesLocal (id : Nat) : LetE → Bool
  | .mk _ i _ => usesLocal id i

end

mutual

/-- The stateful pattern walk inside `get_pat_binding`: `Pat::walk` with the
closure that records the span of a `PatKind::Binding` whose `HirId` equals
`localId`, flags `multiple_bindings` on a second occurrence, and stops
descending below that second occurrence (the closure returns `false`
there). -/
def patWalk (localId : Nat) : Pat → Option Span × Bool → Option Span × Bool
  | .mk (.binding id sub) sp, st =>
    if id = localId then
      match st with
      | (none, m) => optPatWalk localId sub (some sp, m)
      | (some _, _) => (some sp, true)
    else optPatWalk localId sub st
  | .mk .wild _, st => st
  | .mk .litP _, st => st
  | .mk (.tupleStruct subs) _, st => patsWalk localId subs st
  | .mk (.structP fields) _, st => patsWalk localId fields st
  | .mk (.orP subs) _, st => patsWalk localId subs st
  | .mk (.otherP subs) _, st => patsWalk localId subs st

def optPatWalk (localId : Nat) : OptPat → Option Span × Bool → Option Span × Bool
  | .noneP, st => st
  | .someP p, st => patWalk localId p st

def patsWalk (localId : Nat) : Pats → Option Span × Bool → Option Span × Bool
  | .nil, st => st
  | .cons p ps, st => patsWalk localId ps (patWalk localId p st)

end

mutual

/-- Specification-level count of `PatKind::Binding` nodes carrying `HirId`
`localId` in a pattern tree (for stating the \"bound exactly once\"
eligibility condition). -/
def patCount (localId : Nat) : Pat → Nat
  | .mk (.binding id sub) _ => (if id = localId then 1 else 0) + optPatCount localId sub
  | .mk .wild _ => 0
  | .mk .litP _ => 0
  | .mk (.tupleStruct subs) _ => patsCount localId subs
  | .mk (.structP fields) _ => patsCount localId fields
  | .mk (.orP subs) _ => patsCount localId subs
  | .mk (.otherP subs) _ => patsCount localId subs

def optPatCount (localId : Nat) : OptPat → Nat
  | .noneP => 0
  | .someP p => patCount localId p

def patsCount (localId : Nat) : Pats → Nat
  | .nil => 0
  | .cons p ps => patCount localId p + patsCount localId ps

end

/-- The pieces of `LateContext` the pass consumes: the feature flag gating
const-block patterns, the HIR parent map (only the question "is this
binding's parent a `PatField`?" is asked), and the source-text oracle
`snippet_opt`. -/
structure Ctx where
  inlineConstPat : Bool
  parentIsPatField : Nat → Bool
  snippet : Span → Option String

/-- One emitted lint finding: anchor span, message, the multipart suggestion
(list of span/replacement pairs) and its applicability. -/
structure Diag where
  span : Span
  message : String
  parts : List (Span × String)
  app : Applicability
deriving DecidableEq, Repr

/-- The per-node acceptance test of `expr_can_be_pat`: the body of the
`match expr.kind` inside the `for_each_expr` closure.  A node passes when it
is a const block (gated on `inline_const_pat`), a call whose callee is a
path resolving to a constructor, a path resolving to a struct, enum or
constructor, an address-of / array / tuple / struct literal, or a
non-float literal. -/
def accept (cx : Ctx) : ExprKind → Bool
  | .constBlock => cx.inlineConstPat
  | .call c _ =>
    match c with
    | .mk (.path (.defR .ctor)) _ _ => true
    | _ => false
  | .path (.defR .ctor) => true
  | .path (.defR .structK) => true
  | .path (.defR .enumK) => true
  | .addrOf _ => true
  | .array _ => true
  | .tup _ => true
  | .structLit _ => true
  | .lit .float => false
  | .lit _ => true
  | _ => false

mutual

/-- `expr_can_be_pat`: `for_each_expr` applies `accept` to the node and, when
it passes (`ControlFlow::Continue`), descends into every child expression;
the first failing node breaks the traversal, so the result is `true` exactly
when every visited node passes.  Const-block bodies are nested bodies and
are not visited. -/
def exprCanBePat (cx : Ctx) : Expr → Bool
  | .mk k _ _ => accept cx k && kindSubsCanBePat cx k

def kindSubsCanBePat (cx : Ctx) : ExprKind → Bool
  | .matchE s arms _ => exprCanBePat cx s && armsCanBePat cx arms
  | .binary _ l r => exprCanBePat cx l && exprCanBePat cx r
  | .call c args => exprCanBePat cx c && exprsCanBePat cx args
  | .path _ => true
  | .lit _ => true
  | .constBlock => true
  | .addrOf e => exprCanBePat cx e
  | .array es => exprsCanBePat cx es
  | .tup es => exprsCanBePat cx es
  | .structLit es => exprsCanBePat cx es
  | .otherE es => exprsCanBePat cx es

def exprsCanBePat (cx : Ctx) : Exprs → Bool
  | .nil => true
  | .cons e es => exprCanBePat cx e && exprsCanBePat cx es

def armsCanBePat (cx : Ctx) : Arms → Bool
  | .nil => true
  | .cons a as => armCanBePat cx a && armsCanBePat cx as

def armCanBePat (cx : Ctx) : Arm → Bool
  | .mk _ g b => optGuardCanBePat cx g && exprCanBePat cx b

def optGuardCanBePat (cx : Ctx) : OptGuard → Bool
  | .noneG => true
  | .someG (.ifG e) => exprCanBePat cx e
  | .someG (.ifLet l) => letCanBePat cx l

def letCanBePat (cx : Ctx) : LetE → Bool
  | .mk _ i _ => exprCanBePat cx i

end

/-- Is this node itself a floating-point literal? -/
def kindIsFloatLit : ExprKind → Bool
  | .lit .float => true
  | _ => false

mutual

/-- Does the expression tree (as traversed by `for_each_expr`) contain a
floating-point literal node? -/
def exprContainsFloat : Expr → Bool
  | .mk k _ _ => kindIsFloatLit k || kindSubsContainFloat k

def kindSubsContainFloat : ExprKind → Bool
  | .matchE s arms _ => exprContainsFloat s || armsContainFloat arms
  | .binary _ l r => exprContainsFloat l || exprContainsFloat r
  | .call c args => exprContainsFloat c || exprsContainFloat args
  | .path _ => false
  | .lit _ => false
  | .constBlock => false
  | .addrOf e => exprContainsFloat e
  | .array es => exprsContainFloat es
  | .tup es => exprsContainFloat es
  | .structLit es => exprsContainFloat es
  | .otherE es => exprsContainFloat es

def exprsContainFloat : Exprs → Bool
  | .nil => false
  | .cons e es => exprContainsFloat e || exprsContainFloat es

def armsContainFloat : Arms → Bool
  | .nil => false
  | .cons a as => armContainsFloat a || armsContainFloat as

def armContainsFloat : Arm → Bool
  | .mk _ g b => optGuardContainsFloat g || exprContainsFloat b

def optGuardContainsFloat : OptGuard → Bool
  | .noneG => false
  | .someG (.ifG e) => exprContainsFloat e
  | .someG (.ifLet l) => letContainsFloat l

def letContainsFloat : LetE → Bool
  | .mk _ i _ => exprContainsFloat i

end

/-- `get_pat_binding`: the scrutinee must resolve to a local that is unused
in the arm body; walk the arm's own pattern for the binding, reject on
multiple occurrences, and pair the found span with the shorthand flag
(`true` unless the binding's parent node is a `PatField`). -/
def getPatBinding (cx : Ctx) (guardExpr : Expr) (outerArm : Arm) : Option (Span × Bool) :=
  match pathToLocal guardExpr with
  | none => none
  | some l =>
    if usesLocal l outerArm.body then none
    else
      let r := patWalk l outerArm.pat (none, false)
      if r.2 then none
      else
        match r.1 with
        | none => none
        | some sp => some (sp, !(cx.parentIsPatField l))

/-- `clippy_utils::source::snippet_with_applicability`: degrade to
`MaybeIncorrect` on spans from expansions, fall back to the default text
(degrading `MachineApplicable` to `HasPlaceholders`) when no source text is
available. -/
def snippetWithApplicability (cx : Ctx) (sp : Span) (dflt : String)
    (app : Applicability) : String × Applicability :=
  let app1 := if app ≠ Applicability.unspecified ∧ sp.fromExpansion = true
    then Applicability.maybeIncorrect else app
  match cx.snippet sp with
  | some s => (s, app1)
  | none =>
    (dflt, if app1 = Applicability.machineApplicable
      then Applicability.hasPlaceholders else app1)

/-- `emit_redundant_guards`: resolve the binding, then emit one finding at
the guard span's call site with the two-part suggestion — replace (or, for
a struct-field binding, annotate after) the binding's pattern span with the
candidate pattern text, and replace the guard clause (from the end of the
outer pattern) with the leftover inner guard text, if any, prefixed by its
introducer keyword. -/
def emitRedundantGuards (cx : Ctx) (outerArm : Arm) (guardSpan : Span)
    (localE : Expr) (patSpan : Span) (innerGuard : OptGuard) : Option Diag :=
  match getPatBinding cx localE outerArm with
  | none => none
  | some (patBinding, canUseShorthand) =>
    let r1 := snippetWithApplicability cx patSpan "<binding_repl>" Applicability.maybeIncorrect
    let part2 : String × Applicability :=
      match innerGuard with
      | .noneG => ("", r1.2)
      | .someG g =>
        let kwsp : String × Span :=
          match g with
          | .ifG e => ("if", e.span)
          | .ifLet l => ("if let", l.span)
        let r2 := snippetWithApplicability cx kwsp.2 "<guard>" r1.2
        (" " ++ kwsp.1 ++ " " ++ r2.1, r2.2)
    some
      { span := guardSpan.sourceCallsite
        message := "redundant guard"
        parts :=
          [ (if canUseShorthand then (patBinding, r1.1)
             else (patBinding.shrinkToHi, ": " ++ r1.1)),
            (Span.withLo guardSpan.sourceCallsite outerArm.pat.span.hi, part2.1) ]
        app := part2.2 }

/-- The per-arm body of `check`'s loop: classify the guard into one of the
three shapes — nested two-arm `match` of normal source kind with a wildcard
second arm, pattern guard (`if let`), or `==` against a pattern-expressible
operand of identical type — and emit. -/
def checkArm (cx : Ctx) (outerArm : Arm) : Option Diag :=
  match outerArm.guard with
  | .noneG => none
  | .someG g =>
    match g with
    | .ifG ifExpr =>
      match ifExpr.kind with
      | .matchE scrut (.cons arm1 (.cons (.mk (.mk .wild _) _ _) .nil)) .normal =>
        emitRedundantGuards cx outerArm ifExpr.span scrut arm1.pat.span arm1.guard
      | .binary op l r =>
        if op = BinOpKind.eq ∧ exprCanBePat cx r = true ∧ l.ty = r.ty
        then emitRedundantGuards cx outerArm ifExpr.span l r.span .noneG
        else none
      | _ => none
    | .ifLet le => emitRedundantGuards cx outerArm le.span le.init le.pat.span .noneG

/-- `check`: scan every arm of the match, emitting at most one diagnostic
per guarded arm. -/
def check (cx : Ctx) (arms : List Arm) : List Diag :=
  arms.filterMap (checkArm cx)

/-- The normalized tuple the Guard Shape Matcher extracts for an arm, when a
shape matches: guard span, scrutinee expression, candidate-pattern span,
leftover inner guard.  Mirrors the branch structure of `check`. -/
def armShapeData (cx : Ctx) (outerArm : Arm) : Option (Span × Expr × Span × OptGuard) :=
  match outerArm.guard with
  | .noneG => none
  | .someG g =>
    match g with
    | .ifG ifExpr =>
      match ifExpr.kind with
      | .matchE scrut (.cons arm1 (.cons (.mk (.mk .wild _) _ _) .nil)) .normal =>
        some (ifExpr.span, scrut, arm1.pat.span, arm1.guard)
      | .binary op l r =>
        if op = BinOpKind.eq ∧ exprCanBePat cx r = true ∧ l.ty = r.ty
        then some (ifExpr.span, l, r.span, .noneG)
        else none
      | _ => none
    | .ifLet le => some (le.span, le.init, le.pat.span, .noneG)

/-- The span of an arm's guard as the code anchors it: the `if` expression's
span or the `let` expression's span. -/
def guardSpanOfArm : Arm → Option Span
  | .mk _ (.someG (.ifG e)) _ => some e.span
  | .mk _ (.someG (.ifLet l)) _ => some l.span
  | .mk _ .noneG _ => none

/-- An arm of the nested-match shape: outer pattern/body, with a guard that
is a two-arm `match` of normal source kind. -/
def mkNestedMatchArm (opat : Pat) (obody scrut : Expr) (innerArm wildArm : Arm)
    (gs : Span) (t1 : Nat) : Arm :=
  Arm.mk opat
    (.someG (.ifG (Expr.mk (.matchE scrut (.cons innerArm (.cons wildArm .nil)) .normal) gs t1)))
    obody

/-- The replacement text of the second suggestion part: empty when there is
no leftover inner guard, otherwise the leftover guard's source text prefixed
by its introducer keyword. -/
def leftoverTextOf (cx : Ctx) : OptGuard → String
  | .noneG => ""
  | .someG (.ifG e) => " " ++ "if" ++ " " ++ ((cx.snippet e.span).getD "<guard>")
  | .someG (.ifLet l) => " " ++ "if let" ++ " " ++ ((cx.snippet l.span).getD "<guard>")

theorem snippetWithApplicability_fst (cx : Ctx) (sp : Span) (dflt : String)
    (app : Applicability) :
    (snippetWithApplicability cx sp dflt app).1 = (cx.snippet sp).getD dflt := by
  unfold snippetWithApplicability
  cases h : cx.snippet sp <;> simp [h]

theorem snippetWithApplicability_snd_mi (cx : Ctx) (sp : Span) (dflt : String) :
    (snippetWithApplicability cx sp dflt Applicability.maybeIncorrect).2 =
      Applicability.maybeIncorrect := by
  unfold snippetWithApplicability
  cases h : cx.snippet sp <;> simp [h]

mutual

/-- Invariant of the `get_pat_binding` pattern walk: the found-span becomes
set exactly when the tree holds a matching binding (or one was already
found), and the `multiple_bindings` flag is raised exactly when a second
occurrence is encountered. -/
theorem patWalk_master (localId : Nat) (p : Pat) (st : Option Span × Bool) :
    ((patWalk localId p st).1.isSome = true ↔
      (st.1.isSome = true ∨ 1 ≤ patCount localId p))
    ∧ ((patWalk localId p st).2 = true ↔
      (st.2 = true ∨ (st.1.isSome = true ∧ 1 ≤ patCount localId p) ∨
        2 ≤ patCount localId p)) := by
  cases p with
  | mk k sp =>
    cases k with
    | binding id sub =>
      by_cases hid : id = localId
      · subst hid
        obtain ⟨s1, m⟩ := st
        cases s1 with
        | none =>
          obtain ⟨h1, h2⟩ := optPatWalk_master id sub (some sp, m)
          simp only [Option.isSome_some, true_or, true_and] at h1 h2
          simp [patWalk, patCount]
          rw [h1, h2]
          cases m <;> simp
          omega
        | some s0 =>
          simp [patWalk, patCount]
      · obtain ⟨h1, h2⟩ := optPatWalk_master localId sub st
        simp only [patWalk, patCount]
        rw [if_neg hid, if_neg hid]
        simpa using ⟨h1, h2⟩
    | wild => simp [patWalk, patCount]
    | litP => simp [patWalk, patCount]
    | tupleStruct subs =>
      have h := patsWalk_master localId subs st
      simpa [patWalk, patCount] using h
    | structP fields =>
      have h := patsWalk_master localId fields st
      simpa [patWalk, patCount] using h
    | orP subs =>
      have h := patsWalk_master localId subs st
      simpa [patWalk, patCount] using h
    | otherP subs =>
      have h := patsWalk_master localId subs st
      simpa [patWalk, patCount] using h

theorem optPatWalk_master (localId : Nat) (op : OptPat) (st : Option Span × Bool) :
    ((optPatWalk localId op st).1.isSome = true ↔
      (st.1.isSome = true ∨ 1 ≤ optPatCount localId op))
    ∧ ((optPatWalk localId op st).2 = true ↔
      (st.2 = true ∨ (st.1.isSome = true ∧ 1 ≤ optPatCount localId op) ∨
        2 ≤ optPatCount localId op)) := by
  cases op with
  | noneP => simp [optPatWalk, optPatCount]
  | someP p =>
    have h := patWalk_master localId p st
    simpa [optPatWalk, optPatCount] using h

theorem patsWalk_master (localId : Nat) (ps : Pats) (st : Option Span × Bool) :
    ((patsWalk localId ps st).1.isSome = true ↔
      (st.1.isSome = true ∨ 1 ≤ patsCount localId ps))
    ∧ ((patsWalk localId ps st).2 = true ↔
      (st.2 = true ∨ (st.1.isSome = true ∧ 1 ≤ patsCount localId ps) ∨
        2 ≤ patsCount localId ps)) := by
  cases ps with
  | nil => simp [patsWalk, patsCount]
  | cons p rest =>
    obtain ⟨h1a, h1b⟩ := patWalk_master localId p st
    obtain ⟨h2a, h2b⟩ := patsWalk_master localId rest (patWalk localId p st)
    simp only [patsWalk, patsCount]
    rw [h2a, h2b, h1a, h1b]
    obtain ⟨s1, b⟩ := st
    cases s1 <;> cases b <;> simp <;> omega

end

/-- Binding Resolution succeeds exactly when the guard scrutinee resolves to
a local that is unused in the arm body and bound exactly once in the arm's
own pattern. -/
theorem getPatBinding_isSome_iff (cx : Ctx) (e : Expr) (a : Arm) :
    (∃ r, getPatBinding cx e a = some r) ↔
    ∃ id, pathToLocal e = some id ∧ usesLocal id a.body = false ∧
      patCount id a.pat = 1 := by
  cases he : pathToLocal e with
  | none => simp [getPatBinding, he]
  | some l =>
    simp only [getPatBinding, he, Option.some.injEq]
    obtain ⟨hm1, hm2⟩ := patWalk_master l a.pat (none, false)
    simp only [Option.isSome_none, Bool.false_eq_true, false_or, false_and,
      or_false] at hm1 hm2
    constructor
    · rintro ⟨r, hr⟩
      split at hr
      · exact absurd hr (by simp)
      · next hu =>
        split at hr
        · exact absurd hr (by simp)
        · next hw =>
          split at hr
          · exact absurd hr (by simp)
          · next sp hsp =>
            refine ⟨l, rfl, by simpa using hu, ?_⟩
            have h1 : 1 ≤ patCount l a.pat := hm1.mp (by rw [hsp]; rfl)
            have h2 : ¬ (patWalk l a.pat (none, false)).2 = true := hw
            rw [hm2] at h2
            omega
    · rintro ⟨id, hid, hu, hc⟩
      cases hid
      rw [hu]
      simp only [Bool.false_eq_true, if_false]
      have h2 : ¬ (patWalk l a.pat (none, false)).2 = true := by
        rw [hm2]; omega
      have h1 : (patWalk l a.pat (none, false)).1.isSome = true := by
        rw [hm1]; omega
      simp only [Bool.not_eq_true] at h2
      rw [h2]
      simp only [Bool.false_eq_true, if_false]
      obtain ⟨sp, hsp⟩ := Option.isSome_iff_exists.mp h1
      rw [hsp]
      exact ⟨(sp, !cx.parentIsPatField l), rfl⟩

/-- On success, the shorthand flag returned by Binding Resolution is exactly
"the binding's parent is not a `PatField`". -/
theorem getPatBinding_shorthand (cx : Ctx) (e : Expr) (a : Arm) (id : Nat)
    (sp : Span) (sh : Bool) (hid : pathToLocal e = some id)
    (h : getPatBinding cx e a = some (sp, sh)) :
    sh = !(cx.parentIsPatField id) := by
  simp only [getPatBinding, hid] at h
  split at h
  · exact absurd h (by simp)
  · split at h
    · exact absurd h (by simp)
    · split at h
      · exact absurd h (by simp)
      · next sp0 hsp0 =>
        obtain ⟨-, h2⟩ := Prod.mk.injEq .. ▸ Option.some.inj h
        exact h2.symm

mutual

/-- A floating-point literal anywhere in the visited expression tree makes
the expression not pattern-expressible. -/
theorem float_not_pat (cx : Ctx) : (e : Expr) → exprContainsFloat e = true →
    exprCanBePat cx e = false
  | .mk k sp ty, h => by
    cases k with
    | lit lk =>
      cases lk with
      | float => simp [exprCanBePat, accept]
      | int n => simp [exprContainsFloat, kindIsFloatLit, kindSubsContainFloat] at h
      | otherLit => simp [exprContainsFloat, kindIsFloatLit, kindSubsContainFloat] at h
    | path r => simp [exprContainsFloat, kindIsFloatLit, kindSubsContainFloat] at h
    | constBlock => simp [exprContainsFloat, kindIsFloatLit, kindSubsContainFloat] at h
    | matchE s arms src => simp [exprCanBePat, accept]
    | binary op l r => simp [exprCanBePat, accept]
    | otherE es => simp [exprCanBePat, accept]
    | call c args =>
      simp only [exprContainsFloat, kindIsFloatLit, kindSubsContainFloat,
        Bool.false_or, Bool.or_eq_true] at h
      rcases h with h | h
      · simp [exprCanBePat, kindSubsCanBePat, float_not_pat cx c h]
      · simp [exprCanBePat, kindSubsCanBePat, floats_not_pat cx args h]
    | addrOf e0 =>
      simp only [exprContainsFloat, kindIsFloatLit, kindSubsContainFloat,
        Bool.false_or] at h
      simp [exprCanBePat, kindSubsCanBePat, float_not_pat cx e0 h]
    | array es =>
      simp only [exprContainsFloat, kindIsFloatLit, kindSubsContainFloat,
        Bool.false_or] at h
      simp [exprCanBePat, kindSubsCanBePat, floats_not_pat cx es h]
    | tup es =>
      simp only [exprContainsFloat, kindIsFloatLit, kindSubsContainFloat,
        Bool.false_or] at h
      simp [exprCanBePat, kindSubsCanBePat, floats_not_pat cx es h]
    | structLit es =>
      simp only [exprContainsFloat, kindIsFloatLit, kindSubsContainFloat,
        Bool.false_or] at h
      simp [exprCanBePat, kindSubsCanBePat, floats_not_pat cx es h]

theorem floats_not_pat (cx : Ctx) : (es : Exprs) → exprsContainFloat es = true →
    exprsCanBePat cx es = false
  | .cons e rest, h => by
    simp only [exprsContainFloat, Bool.or_eq_true] at h
    rcases h with h | h
    · simp [exprsCanBePat, float_not_pat cx e h]
    · simp [exprsCanBePat, floats_not_pat cx rest h]

end

/-- `check`'s per-arm logic factored through the Guard Shape Matcher: the arm
is linted by handing the extracted tuple to the emitter. -/
theorem checkArm_eq_shape (cx : Ctx) (a : Arm) :
    checkArm cx a = match armShapeData cx a with
      | none => none
      | some (gs, sc, ps, ig) => emitRedundantGuards cx a gs sc ps ig := by
  obtain ⟨p, g, b⟩ := a
  cases g with
  | noneG => rfl
  | someG gg =>
    cases gg with
    | ifLet le => rfl
    | ifG e =>
      obtain ⟨k, sp, ty⟩ := e
      cases k with
      | matchE s arms src =>
        cases arms with
        | nil => rfl
        | cons a1 rest =>
          cases rest with
          | nil => rfl
          | cons a2 rest2 =>
            obtain ⟨p2, g2, b2⟩ := a2
            obtain ⟨pk2, psp2⟩ := p2
            cases pk2 with
            | wild =>
              cases rest2 with
              | cons a3 rest3 => rfl
              | nil =>
                cases src with
                | normal => rfl
                | desugared => rfl
            | binding i s0 => rfl
            | tupleStruct s0 => rfl
            | structP s0 => rfl
            | orP s0 => rfl
            | litP => rfl
            | otherP s0 => rfl
      | binary op l r =>
        by_cases hc : op = BinOpKind.eq ∧ exprCanBePat cx r = true ∧
          Expr.ty l = Expr.ty r
        · simp only [checkArm, armShapeData, Arm.guard, Expr.kind, if_pos hc]
        · simp only [checkArm, armShapeData, Arm.guard, Expr.kind, if_neg hc]
      | call c args => rfl
      | path res => rfl
      | lit lk => rfl
      | constBlock => rfl
      | addrOf e0 => rfl
      | array es => rfl
      | tup es => rfl
      | structLit es => rfl
      | otherE es => rfl

/-- The emitter reads the outer arm only through its pattern and body. -/
theorem emit_congr_patbody (cx : Ctx) (a1 a2 : Arm) (gs : Span) (sc : Expr)
    (ps : Span) (ig : OptGuard) (hp : a1.pat = a2.pat) (hb : a1.body = a2.body) :
    emitRedundantGuards cx a1 gs sc ps ig = emitRedundantGuards cx a2 gs sc ps ig := by
  unfold emitRedundantGuards getPatBinding
  rw [hp, hb]

/-- When Binding Resolution fails, nothing is emitted. -/
theorem emit_none_of_binding_none (cx : Ctx) (a : Arm) (gs : Span) (sc : Expr)
    (ps : Span) (ig : OptGuard) (h : getPatBinding cx sc a = none) :
    emitRedundantGuards cx a gs sc ps ig = none := by
  unfold emitRedundantGuards
  rw [h]

/-- An emitted finding presupposes Binding Resolution succeeded. -/
theorem emit_some_binding (cx : Ctx) (a : Arm) (gs : Span) (sc : Expr)
    (ps : Span) (ig : OptGuard) (d : Diag)
    (h : emitRedundantGuards cx a gs sc ps ig = some d) :
    ∃ r, getPatBinding cx sc a = some r := by
  unfold emitRedundantGuards at h
  split at h
  · exact absurd h (by simp)
  · rename_i pb sh hpb
    exact ⟨(pb, sh), hpb⟩

/-- Every emitted finding carries the fixed message, the `MaybeIncorrect`
applicability, and is anchored at the guard span's call site. -/
theorem emit_fields (cx : Ctx) (a : Arm) (gs : Span) (sc : Expr) (ps : Span)
    (ig : OptGuard) (d : Diag) (h : emitRedundantGuards cx a gs sc ps ig = some d) :
    d.message = "redundant guard" ∧ d.app = Applicability.maybeIncorrect ∧
    d.span = gs.sourceCallsite := by
  unfold emitRedundantGuards at h
  split at h
  · exact absurd h (by simp)
  · rename_i pb sh hpb
    rw [Option.some.injEq] at h
    subst h
    refine ⟨rfl, ?_, rfl⟩
    cases ig with
    | noneG => simp [snippetWithApplicability_snd_mi]
    | someG g =>
      cases g with
      | ifG e => simp [snippetWithApplicability_snd_mi]
      | ifLet l => simp [snippetWithApplicability_snd_mi]

/-- The guard span handed to the emitter by any shape is the arm's guard
span (the `if` expression's span, or the `let` expression's span). -/
theorem shape_guardSpan (cx : Ctx) (a : Arm) (gs : Span) (sc : Expr) (ps : Span)
    (ig : OptGuard) (h : armShapeData cx a = some (gs, sc, ps, ig)) :
    guardSpanOfArm a = some gs := by
  obtain ⟨p, g, b⟩ := a
  cases g with
  | noneG => exact absurd h (by simp [armShapeData, Arm.guard])
  | someG gg =>
    cases gg with
    | ifLet le =>
      simp only [armShapeData, Arm.guard, Option.some.injEq, Prod.mk.injEq] at h
      obtain ⟨h1, -, -, -⟩ := h
      subst h1
      rfl
    | ifG e =>
      obtain ⟨k, sp, ty⟩ := e
      cases k with
      | matchE s arms src =>
        cases arms with
        | nil => exact absurd h (by simp [armShapeData, Arm.guard, Expr.kind])
        | cons a1 rest =>
          cases rest with
          | nil => exact absurd h (by simp [armShapeData, Arm.guard, Expr.kind])
          | cons a2 rest2 =>
            obtain ⟨p2, g2, b2⟩ := a2
            obtain ⟨pk2, psp2⟩ := p2
            cases pk2 with
            | wild =>
              cases rest2 with
              | cons a3 rest3 =>
                exact absurd h (by simp [armShapeData, Arm.guard, Expr.kind])
              | nil =>
                cases src with
                | normal =>
                  simp only [armShapeData, Arm.guard, Expr.kind, Expr.span,
                    Option.some.injEq, Prod.mk.injEq] at h
                  obtain ⟨h1, -, -, -⟩ := h
                  subst h1
                  rfl
                | desugared =>
                  exact absurd h (by simp [armShapeData, Arm.guard, Expr.kind])
            | binding i s0 =>
              exact absurd h (by simp [armShapeData, Arm.guard, Expr.kind])
            | tupleStruct s0 =>
              exact absurd h (by simp [armShapeData, Arm.guard, Expr.kind])
            | structP s0 =>
              exact absurd h (by simp [armShapeData, Arm.guard, Expr.kind])
            | orP s0 =>
              exact absurd h (by simp [armShapeData, Arm.guard, Expr.kind])
            | litP =>
              exact absurd h (by simp [armShapeData, Arm.guard, Expr.kind])
            | otherP s0 =>
              exact absurd h (by simp [armShapeData, Arm.guard, Expr.kind])
      | binary op l r =>
        by_cases hc : op = BinOpKind.eq ∧ exprCanBePat cx r = true ∧
          Expr.ty l = Expr.ty r
        · simp only [armShapeData, Arm.guard, Expr.kind, Expr.span, if_pos hc,
            Option.some.injEq, Prod.mk.injEq] at h
          obtain ⟨h1, -, -, -⟩ := h
          subst h1
          rfl
        · refine absurd h ?_
          simp only [armShapeData, Arm.guard, Expr.kind, if_neg hc]
          simp
      | call c args => exact absurd h (by simp [armShapeData, Arm.guard, Expr.kind])
      | path res => exact absurd h (by simp [armShapeData, Arm.guard, Expr.kind])
      | lit lk => exact absurd h (by simp [armShapeData, Arm.guard, Expr.kind])
      | constBlock => exact absurd h (by simp [armShapeData, Arm.guard, Expr.kind])
      | addrOf e0 => exact absurd h (by simp [armShapeData, Arm.guard, Expr.kind])
      | array es => exact absurd h (by simp [armShapeData, Arm.guard, Expr.kind])
      | tup es => exact absurd h (by simp [armShapeData, Arm.guard, Expr.kind])
      | structLit es => exact absurd h (by simp [armShapeData, Arm.guard, Expr.kind])
      | otherE es => exact absurd h (by simp [armShapeData, Arm.guard, Expr.kind])

/-- C2: for every arm matched by any of the three guard shapes, a diagnostic
is emitted only if the shape's scrutinee resolves to a local binding bound
exactly once in the arm's own pattern and unreferenced in the arm body; when
it resolves but is bound zero times, bound more than once, or used in the
body, no diagnostic is emitted for that arm. -/
theorem claim_c2 (cx : Ctx) (a : Arm) :
    (∀ d, checkArm cx a = some d →
      ∃ gs sc ps ig id, armShapeData cx a = some (gs, sc, ps, ig) ∧
        pathToLocal sc = some id ∧ patCount id a.pat = 1 ∧
        usesLocal id a.body = false)
    ∧ (∀ gs sc ps ig, armShapeData cx a = some (gs, sc, ps, ig) →
      (∀ id, pathToLocal sc = some id →
        patCount id a.pat ≠ 1 ∨ usesLocal id a.body = true) →
      checkArm cx a = none) := by
  constructor
  · intro d h
    rw [checkArm_eq_shape] at h
    cases hs : armShapeData cx a with
    | none => rw [hs] at h; exact absurd h (by simp)
    | some t =>
      obtain ⟨gs, sc, ps, ig⟩ := t
      rw [hs] at h
      obtain ⟨r, hr⟩ := emit_some_binding cx a gs sc ps ig d h
      obtain ⟨id, hid, hu, hc⟩ := (getPatBinding_isSome_iff cx sc a).mp ⟨r, hr⟩
      exact ⟨gs, sc, ps, ig, id, hs ▸ rfl, hid, hc, hu⟩
  · intro gs sc ps ig hs hcond
    rw [checkArm_eq_shape, hs]
    show emitRedundantGuards cx a gs sc ps ig = none
    apply emit_none_of_binding_none
    cases hg : getPatBinding cx sc a with
    | none => rfl
    | some r =>
      obtain ⟨id, hid, hu, hc⟩ := (getPatBinding_isSome_iff cx sc a).mp ⟨r, hg⟩
      rcases hcond id hid with h1 | h1
      · exact absurd hc h1
      · rw [hu] at h1; exact absurd h1 (by simp)

/-- C3: for an arm whose guard is a binary comparison, a diagnostic is
emitted only when the right operand is pattern-expressible and the two
operands' types are identical; differing operand types never emit. -/
theorem claim_c3 (cx : Ctx) (p : Pat) (b l r : Expr) (op : BinOpKind) (sp : Span)
    (ty0 : Nat) :
    (∀ d, checkArm cx (Arm.mk p (.someG (.ifG (Expr.mk (.binary op l r) sp ty0))) b)
        = some d →
      op = BinOpKind.eq ∧ exprCanBePat cx r = true ∧ l.ty = r.ty)
    ∧ (l.ty ≠ r.ty →
      checkArm cx (Arm.mk p (.someG (.ifG (Expr.mk (.binary op l r) sp ty0))) b)
        = none) := by
  have hred : checkArm cx (Arm.mk p (.someG (.ifG (Expr.mk (.binary op l r) sp ty0))) b)
      = if op = BinOpKind.eq ∧ exprCanBePat cx r = true ∧ Expr.ty l = Expr.ty r
        then emitRedundantGuards cx
          (Arm.mk p (.someG (.ifG (Expr.mk (.binary op l r) sp ty0))) b)
          sp l r.span .noneG
        else none := rfl
  constructor
  · intro d h
    rw [hred] at h
    by_cases hc : op = BinOpKind.eq ∧ exprCanBePat cx r = true ∧ Expr.ty l = Expr.ty r
    · exact hc
    · rw [if_neg hc] at h
      exact absurd h (by simp)
  · intro hne
    rw [hred, if_neg]
    rintro ⟨-, -, h3⟩
    exact hne h3

/-- C7: a floating-point literal anywhere in the comparison operand of the
equality shape prevents any diagnostic for that arm, since floats are not
pattern-expressible. -/
theorem claim_c7 (cx : Ctx) (p : Pat) (b l r : Expr) (op : BinOpKind) (sp : Span)
    (ty0 : Nat) (hf : exprContainsFloat r = true) :
    checkArm cx (Arm.mk p (.someG (.ifG (Expr.mk (.binary op l r) sp ty0))) b)
      = none := by
  have hred : checkArm cx (Arm.mk p (.someG (.ifG (Expr.mk (.binary op l r) sp ty0))) b)
      = if op = BinOpKind.eq ∧ exprCanBePat cx r = true ∧ Expr.ty l = Expr.ty r
        then emitRedundantGuards cx
          (Arm.mk p (.someG (.ifG (Expr.mk (.binary op l r) sp ty0))) b)
          sp l r.span .noneG
        else none := rfl
  rw [hred, if_neg]
  rintro ⟨-, hpat, -⟩
  rw [float_not_pat cx r hf] at hpat
  exact absurd hpat (by simp)

/-- C9: every emitted diagnostic is anchored at the guard span resolved to
its originating call site, carries the fixed message "redundant guard", and
has the non-exact `MaybeIncorrect` confidence tier — never
`MachineApplicable`. -/
theorem claim_c9 (cx : Ctx) (a : Arm) (d : Diag) (h : checkArm cx a = some d) :
    d.message = "redundant guard" ∧ d.app = Applicability.maybeIncorrect ∧
    d.app ≠ Applicability.machineApplicable ∧
    ∃ gs, guardSpanOfArm a = some gs ∧ d.span = gs.sourceCallsite := by
  rw [checkArm_eq_shape] at h
  cases hs : armShapeData cx a with
  | none => rw [hs] at h; exact absurd h (by simp)
  | some t =>
    obtain ⟨gs, sc, ps, ig⟩ := t
    rw [hs] at h
    obtain ⟨hm, ha, hsp⟩ := emit_fields cx a gs sc ps ig d h
    refine ⟨hm, ha, by simp [ha], gs, shape_guardSpan cx a gs sc ps ig hs, hsp⟩

/-- C4: a pattern-guard arm (`if let pat = e`) produces exactly the result of
the nested-match shape with the same scrutinee, the same candidate-pattern
span, and no leftover guard. -/
theorem claim_c4 (cx : Ctx) (opat gp : Pat) (obody scrut ib wb : Expr)
    (wsp gs : Span) (t1 : Nat) :
    checkArm cx (Arm.mk opat (.someG (.ifLet (LetE.mk gp scrut gs))) obody) =
    checkArm cx (mkNestedMatchArm opat obody scrut (Arm.mk gp .noneG ib)
      (Arm.mk (Pat.mk .wild wsp) .noneG wb) gs t1) :=
  emit_congr_patbody cx
    (Arm.mk opat (.someG (.ifLet (LetE.mk gp scrut gs))) obody)
    (mkNestedMatchArm opat obody scrut (Arm.mk gp .noneG ib)
      (Arm.mk (Pat.mk .wild wsp) .noneG wb) gs t1)
    gs scrut gp.span .noneG rfl rfl

/-- C8: the first suggestion part replaces the binding's own span outright
when the binding is shorthand-eligible, and otherwise (binding nested in a
struct-field pattern) inserts `": "` plus the candidate text just after the
field binding; the flag is exactly "parent is not a `PatField`". -/
theorem claim_c8 (cx : Ctx) (outerArm : Arm) (gs : Span) (sc : Expr) (ps : Span)
    (ig : OptGuard) (d : Diag) (id : Nat) (bSpan : Span) (sh : Bool)
    (hid : pathToLocal sc = some id)
    (hb : getPatBinding cx sc outerArm = some (bSpan, sh))
    (he : emitRedundantGuards cx outerArm gs sc ps ig = some d) :
    sh = !cx.parentIsPatField id ∧
    d.parts.head? = some (if sh = true
      then (bSpan, (cx.snippet ps).getD "<binding_repl>")
      else (bSpan.shrinkToHi, ": " ++ (cx.snippet ps).getD "<binding_repl>")) := by
  refine ⟨getPatBinding_shorthand cx sc outerArm id bSpan sh hid hb, ?_⟩
  unfold emitRedundantGuards at he
  rw [hb] at he
  rw [Option.some.injEq] at he
  subst he
  simp only [List.head?_cons, Option.some.injEq]
  rw [snippetWithApplicability_fst]

/-- C10: the nested-match shape never inspects the inner arms' bodies — the
result is unchanged under any replacement of those bodies. -/
theorem claim_c10 (cx : Ctx) (opat ipat : Pat) (obody scrut : Expr)
    (ig wg : OptGuard) (wsp gs : Span) (t1 : Nat) (ib1 wb1 ib2 wb2 : Expr) :
    checkArm cx (mkNestedMatchArm opat obody scrut (Arm.mk ipat ig ib1)
      (Arm.mk (Pat.mk .wild wsp) wg wb1) gs t1) =
    checkArm cx (mkNestedMatchArm opat obody scrut (Arm.mk ipat ig ib2)
      (Arm.mk (Pat.mk .wild wsp) wg wb2) gs t1) :=
  emit_congr_patbody cx _ _ gs scrut ipat.span ig rfl rfl

/-- C5 (amended): the nested-match shape is recognized whenever the guard is
a two-arm match of normal source kind whose second arm's pattern is a
wildcard — regardless of whether that fallback arm carries a guard of its
own, and the result is the same as with an unguarded fallback arm. -/
theorem claim_c5_thm (cx : Ctx) (opat : Pat) (obody scrut wb : Expr) (ia : Arm)
    (wg : OptGuard) (wsp gs : Span) (t1 : Nat) :
    armShapeData cx (mkNestedMatchArm opat obody scrut ia
      (Arm.mk (Pat.mk .wild wsp) wg wb) gs t1)
      = some (gs, scrut, (Arm.pat ia).span, Arm.guard ia)
    ∧ checkArm cx (mkNestedMatchArm opat obody scrut ia
      (Arm.mk (Pat.mk .wild wsp) wg wb) gs t1)
      = checkArm cx (mkNestedMatchArm opat obody scrut ia
      (Arm.mk (Pat.mk .wild wsp) .noneG wb) gs t1) :=
  ⟨rfl, emit_congr_patbody cx _ _ gs scrut (Arm.pat ia).span (Arm.guard ia) rfl rfl⟩

def cxC5 : Ctx := ⟨false, fun _ => false, fun sp => some (if sp.lo == 30 then "Some(2)" else "g")⟩

def armC5 : Arm :=
  mkNestedMatchArm
    (Pat.mk (.tupleStruct (.cons (Pat.mk (.binding 7 .noneP) ⟨3,4,none⟩) .nil)) ⟨0,5,none⟩)
    (Expr.mk (.lit (.int 9)) ⟨70,71,none⟩ 0)
    (Expr.mk (.path (.localVar 7)) ⟨20,21,none⟩ 0)
    (Arm.mk (Pat.mk .litP ⟨30,37,none⟩) .noneG (Expr.mk (.lit (.int 1)) ⟨40,41,none⟩ 0))
    (Arm.mk (Pat.mk .wild ⟨50,51,none⟩)
      (.someG (.ifG (Expr.mk (.lit .otherLit) ⟨52,53,none⟩ 0)))
      (Expr.mk (.lit (.int 0)) ⟨54,55,none⟩ 0))
    ⟨10,60,none⟩ 0

/-- C5 (counterexample): an arm whose guard is a two-arm normal match whose
wildcard fallback arm carries its own guard still matches the nested-match
shape and is linted, contrary to the claim that such a guard does not match
the shape. -/
theorem claim_c5_counterexample :
    (∃ e, Arm.guard (Arm.mk (Pat.mk .wild ⟨50,51,none⟩)
      (.someG (.ifG (Expr.mk (.lit .otherLit) ⟨52,53,none⟩ 0)))
      (Expr.mk (.lit (.int 0)) ⟨54,55,none⟩ 0)) = .someG (.ifG e))
    ∧ checkArm cxC5 armC5 =
      some ⟨⟨10,60,none⟩, "redundant guard",
        [(⟨3,4,none⟩, "Some(2)"), (⟨5,60,none⟩, "")], .maybeIncorrect⟩ :=
  ⟨⟨Expr.mk (.lit .otherLit) ⟨52,53,none⟩ 0, rfl⟩, by decide⟩

/-- C6 (amended): address-of, array, tuple and struct-literal nodes, and
calls of a value-constructor, are accepted at the node itself, but their
sub-expressions (the constructor call's arguments included) are recursively
validated, and any disqualifying sub-expression makes the whole expression
inexpressible. -/
theorem claim_c6_thm (cx : Ctx) (es args : Exprs) (e0 : Expr)
    (sp1 sp2 sp3 sp4 sp5 sp6 : Span) (t1 t2 t3 t4 t5 t6 : Nat) :
    exprCanBePat cx (Expr.mk (.tup es) sp1 t1) = exprsCanBePat cx es ∧
    exprCanBePat cx (Expr.mk (.array es) sp2 t2) = exprsCanBePat cx es ∧
    exprCanBePat cx (Expr.mk (.structLit es) sp3 t3) = exprsCanBePat cx es ∧
    exprCanBePat cx (Expr.mk (.addrOf e0) sp4 t4) = exprCanBePat cx e0 ∧
    exprCanBePat cx (Expr.mk (.call (Expr.mk (.path (.defR .ctor)) sp5 t5) args) sp6 t6)
      = exprsCanBePat cx args := by
  refine ⟨?_, ?_, ?_, ?_, ?_⟩ <;>
    simp [exprCanBePat, kindSubsCanBePat, accept]

def cxC6 : Ctx := ⟨false, fun _ => false, fun _ => some "s"⟩

def badCallC6 : Expr :=
  Expr.mk (.call (Expr.mk (.path (.defR .fnK)) ⟨0,1,none⟩ 0) .nil) ⟨0,3,none⟩ 0

def tupC6 : Expr := Expr.mk (.tup (.cons badCallC6 .nil)) ⟨0,4,none⟩ 0

def ctorCallC6 : Expr :=
  Expr.mk (.call (Expr.mk (.path (.defR .ctor)) ⟨5,6,none⟩ 0)
    (.cons badCallC6 .nil)) ⟨5,9,none⟩ 0

/-- C6 (counterexample): a tuple literal, and a constructor call, whose only
disqualifying form (a non-constructor function call) sits inside a
sub-expression / argument, are rejected by the Pattern-Expressibility
Checker even though the node itself is accepted — contrary to the claim
that sub-expressions are not re-validated. -/
theorem claim_c6_counterexample :
    accept cxC6 (Expr.kind tupC6) = true ∧ exprCanBePat cxC6 tupC6 = false ∧
    accept cxC6 (Expr.kind ctorCallC6) = true ∧
    exprCanBePat cxC6 ctorCallC6 = false := by
  decide

/-- C1 (amended): for an arm of the nested-match shape with an unguarded
wildcard fallback, whose scrutinee resolves to a binding bound exactly once
in the arm's pattern and unused in the body, a diagnostic is emitted whose
first edit part replaces the binding's pattern span with the inner arm's
pattern text when the binding is shorthand-eligible — and otherwise inserts
`": "` plus that text after the field binding — and whose second edit part
removes the guard or reattaches the inner arm's leftover guard prefixed by
its introducer keyword. -/
theorem claim_c1_thm (cx : Ctx) (opat ipat : Pat) (obody scrut ib wb : Expr)
    (ig : OptGuard) (wsp gs : Span) (t1 : Nat) (id : Nat) (ptxt : String)
    (hid : pathToLocal scrut = some id)
    (hcount : patCount id opat = 1)
    (hunused : usesLocal id obody = false)
    (hsn : cx.snippet ipat.span = some ptxt) :
    ∃ bSpan : Span,
      getPatBinding cx scrut (mkNestedMatchArm opat obody scrut (Arm.mk ipat ig ib)
          (Arm.mk (Pat.mk .wild wsp) .noneG wb) gs t1)
        = some (bSpan, !cx.parentIsPatField id) ∧
      checkArm cx (mkNestedMatchArm opat obody scrut (Arm.mk ipat ig ib)
          (Arm.mk (Pat.mk .wild wsp) .noneG wb) gs t1)
        = some ⟨gs.sourceCallsite, "redundant guard",
            [ (if cx.parentIsPatField id
               then (bSpan.shrinkToHi, ": " ++ ptxt)
               else (bSpan, ptxt)),
              (Span.withLo gs.sourceCallsite opat.span.hi, leftoverTextOf cx ig) ],
            Applicability.maybeIncorrect⟩ := by
  set armN := mkNestedMatchArm opat obody scrut (Arm.mk ipat ig ib)
    (Arm.mk (Pat.mk .wild wsp) .noneG wb) gs t1 with harm
  have hex : ∃ r, getPatBinding cx scrut armN = some r := by
    refine (getPatBinding_isSome_iff cx scrut armN).mpr ⟨id, hid, ?_, ?_⟩
    · simpa [harm, mkNestedMatchArm, Arm.body] using hunused
    · simpa [harm, mkNestedMatchArm, Arm.pat] using hcount
  obtain ⟨⟨bSpan, sh⟩, hb⟩ := hex
  have hsh := getPatBinding_shorthand cx scrut armN id bSpan sh hid hb
  subst hsh
  refine ⟨bSpan, hb, ?_⟩
  have hstep : checkArm cx armN
      = emitRedundantGuards cx armN gs scrut ipat.span ig := by
    rw [harm]
    rfl
  rw [hstep]
  unfold emitRedundantGuards
  rw [hb]
  cases ig with
  | noneG =>
    cases hpf : cx.parentIsPatField id <;>
      simp [snippetWithApplicability_fst, snippetWithApplicability_snd_mi, hsn,
        leftoverTextOf, hpf, harm, mkNestedMatchArm, Arm.pat]
  | someG g =>
    cases g with
    | ifG e =>
      cases hpf : cx.parentIsPatField id <;>
        simp [snippetWithApplicability_fst, snippetWithApplicability_snd_mi, hsn,
          leftoverTextOf, hpf, harm, mkNestedMatchArm, Arm.pat]
    | ifLet l =>
      cases hpf : cx.parentIsPatField id <;>
        simp [snippetWithApplicability_fst, snippetWithApplicability_snd_mi, hsn,
          leftoverTextOf, hpf, harm, mkNestedMatchArm, Arm.pat]

def cxC1 : Ctx := ⟨false, fun i => i == 5, fun sp => some (if sp.lo == 10 then "2" else "t")⟩

def armC1 : Arm :=
  mkNestedMatchArm
    (Pat.mk (.structP (.cons (Pat.mk (.binding 5 .noneP) ⟨3,4,none⟩) .nil)) ⟨2,5,none⟩)
    (Expr.mk (.lit (.int 0)) ⟨16,17,none⟩ 0)
    (Expr.mk (.path (.localVar 5)) ⟨20,21,none⟩ 0)
    (Arm.mk (Pat.mk .litP ⟨10,11,none⟩) .noneG (Expr.mk (.lit (.int 1)) ⟨10,11,none⟩ 0))
    (Arm.mk (Pat.mk .wild ⟨12,13,none⟩) .noneG (Expr.mk (.lit (.int 0)) ⟨12,13,none⟩ 0))
    ⟨8,15,none⟩ 0

/-- C1 (counterexample): for a binding nested in a struct-field pattern, the
first edit part of the emitted diagnostic is an insertion of `": 2"` at the
empty span `⟨4,4⟩` after the binding — not a replacement of the binding's
pattern span `⟨3,4⟩` with the inner arm's pattern text `"2"` as the claim
states, even though the arm is of the nested-match shape with an unguarded
wildcard fallback, bound exactly once and unused. -/
theorem claim_c1_counterexample :
    pathToLocal (Expr.mk (.path (.localVar 5)) ⟨20,21,none⟩ 0) = some 5 ∧
    patCount 5 (Arm.pat armC1) = 1 ∧
    usesLocal 5 (Arm.body armC1) = false ∧
    cxC1.snippet ⟨10,11,none⟩ = some "2" ∧
    checkArm cxC1 armC1 =
      some ⟨⟨8,15,none⟩, "redundant guard",
        [(⟨4,4,none⟩, ": 2"), (⟨5,15,none⟩, "")], .maybeIncorrect⟩ ∧
    (Span.mk 4 4 none ≠ Span.mk 3 4 none) ∧ ((": 2" : String) ≠ "2") := by
  decide

def cxW1 : Ctx :=
  ⟨false, fun _ => false,
    fun sp => some (if sp.lo == 10 then "2" else if sp.lo == 30 then "cond" else "t")⟩

def opatW1 : Pat := Pat.mk (.binding 7 .noneP) ⟨3,4,none⟩

def ipatW1 : Pat := Pat.mk .litP ⟨10,11,none⟩

def igW1 : OptGuard := .someG (.ifG (Expr.mk (.lit .otherLit) ⟨30,34,none⟩ 0))

def scrutW1 : Expr := Expr.mk (.path (.localVar 7)) ⟨20,21,none⟩ 0

def armW1 : Arm :=
  mkNestedMatchArm opatW1 (Expr.mk (.lit (.int 0)) ⟨16,17,none⟩ 0) scrutW1
    (Arm.mk ipatW1 igW1 (Expr.mk (.lit (.int 1)) ⟨40,41,none⟩ 0))
    (Arm.mk (Pat.mk .wild ⟨12,13,none⟩) .noneG (Expr.mk (.lit (.int 0)) ⟨42,43,none⟩ 0))
    ⟨8,15,none⟩ 0

theorem claim_c1_witness :
    ∃ bSpan : Span,
      getPatBinding cxW1 scrutW1 armW1 = some (bSpan, !cxW1.parentIsPatField 7) ∧
      checkArm cxW1 armW1
        = some ⟨(Span.mk 8 15 none).sourceCallsite, "redundant guard",
            [ (if cxW1.parentIsPatField 7
               then (bSpan.shrinkToHi, ": " ++ "2")
               else (bSpan, "2")),
              (Span.withLo (Span.mk 8 15 none).sourceCallsite (Pat.span opatW1).hi,
               leftoverTextOf cxW1 igW1) ],
            Applicability.maybeIncorrect⟩ :=
  claim_c1_thm cxW1 opatW1 ipatW1 (Expr.mk (.lit (.int 0)) ⟨16,17,none⟩ 0) scrutW1
    (Expr.mk (.lit (.int 1)) ⟨40,41,none⟩ 0) (Expr.mk (.lit (.int 0)) ⟨42,43,none⟩ 0)
    igW1 ⟨12,13,none⟩ ⟨8,15,none⟩ 0 7 "2" (by decide) (by decide) (by decide) (by decide)

def cxW2 : Ctx := ⟨false, fun _ => false, fun _ => some "t"⟩

def scrutW2 : Expr := Expr.mk (.path (.localVar 5)) ⟨20,21,none⟩ 0

def armW2 : Arm :=
  Arm.mk
    (Pat.mk (.orP (.cons (Pat.mk (.binding 5 .noneP) ⟨1,2,none⟩)
      (.cons (Pat.mk (.binding 5 .noneP) ⟨3,4,none⟩) .nil))) ⟨1,4,none⟩)
    (.someG (.ifLet (LetE.mk (Pat.mk .litP ⟨10,11,none⟩) scrutW2 ⟨8,15,none⟩)))
    (Expr.mk (.lit (.int 0)) ⟨16,17,none⟩ 0)

theorem claim_c2_witness : checkArm cxW2 armW2 = none :=
  (claim_c2 cxW2 armW2).2 ⟨8,15,none⟩ scrutW2 ⟨10,11,none⟩ .noneG rfl
    (fun id hid => by
      injection hid with h
      subst h
      exact Or.inl (by decide))

def cxPlain : Ctx := ⟨false, fun _ => false, fun _ => some "t"⟩

theorem claim_c3_witness :
    checkArm cxPlain (Arm.mk (Pat.mk (.binding 5 .noneP) ⟨1,2,none⟩)
      (.someG (.ifG (Expr.mk (.binary .eq (Expr.mk (.path (.localVar 5)) ⟨20,21,none⟩ 1)
        (Expr.mk (.lit (.int 2)) ⟨22,23,none⟩ 2)) ⟨8,15,none⟩ 0)))
      (Expr.mk (.lit (.int 0)) ⟨16,17,none⟩ 0)) = none :=
  (claim_c3 cxPlain (Pat.mk (.binding 5 .noneP) ⟨1,2,none⟩)
    (Expr.mk (.lit (.int 0)) ⟨16,17,none⟩ 0)
    (Expr.mk (.path (.localVar 5)) ⟨20,21,none⟩ 1)
    (Expr.mk (.lit (.int 2)) ⟨22,23,none⟩ 2) .eq ⟨8,15,none⟩ 0).2 (by decide)

theorem claim_c7_witness :
    checkArm cxPlain (Arm.mk (Pat.mk (.binding 5 .noneP) ⟨1,2,none⟩)
      (.someG (.ifG (Expr.mk (.binary .eq (Expr.mk (.path (.localVar 5)) ⟨20,21,none⟩ 1)
        (Expr.mk (.lit .float) ⟨22,26,none⟩ 1)) ⟨8,15,none⟩ 0)))
      (Expr.mk (.lit (.int 0)) ⟨16,17,none⟩ 0)) = none :=
  claim_c7 cxPlain (Pat.mk (.binding 5 .noneP) ⟨1,2,none⟩)
    (Expr.mk (.lit (.int 0)) ⟨16,17,none⟩ 0)
    (Expr.mk (.path (.localVar 5)) ⟨20,21,none⟩ 1)
    (Expr.mk (.lit .float) ⟨22,26,none⟩ 1) .eq ⟨8,15,none⟩ 0 (by decide)

theorem claim_c8_witness :
    (false = !cxC1.parentIsPatField 5) ∧
    (Diag.parts ⟨⟨8,15,none⟩, "redundant guard",
        [(⟨4,4,none⟩, ": 2"), (⟨5,15,none⟩, "")], .maybeIncorrect⟩).head?
      = some (if false = true
        then ((⟨3,4,none⟩ : Span), (cxC1.snippet ⟨10,11,none⟩).getD "<binding_repl>")
        else ((⟨3,4,none⟩ : Span).shrinkToHi,
          ": " ++ (cxC1.snippet ⟨10,11,none⟩).getD "<binding_repl>")) :=
  claim_c8 cxC1 armC1 ⟨8,15,none⟩ (Expr.mk (.path (.localVar 5)) ⟨20,21,none⟩ 0)
    ⟨10,11,none⟩ .noneG
    ⟨⟨8,15,none⟩, "redundant guard",
      [(⟨4,4,none⟩, ": 2"), (⟨5,15,none⟩, "")], .maybeIncorrect⟩
    5 ⟨3,4,none⟩ false (by decide) (by decide) (by decide)

theorem claim_c9_witness :
    Diag.message ⟨⟨10,60,none⟩, "redundant guard",
        [(⟨3,4,none⟩, "Some(2)"), (⟨5,60,none⟩, "")], .maybeIncorrect⟩
      = "redundant guard" ∧
    Diag.app ⟨⟨10,60,none⟩, "redundant guard",
        [(⟨3,4,none⟩, "Some(2)"), (⟨5,60,none⟩, "")], .maybeIncorrect⟩
      = Applicability.maybeIncorrect ∧
    Diag.app ⟨⟨10,60,none⟩, "redundant guard",
        [(⟨3,4,none⟩, "Some(2)"), (⟨5,60,none⟩, "")], .maybeIncorrect⟩
      ≠ Applicability.machineApplicable ∧
    ∃ gs, guardSpanOfArm armC5 = some gs ∧
      Diag.span ⟨⟨10,60,none⟩, "redundant guard",
        [(⟨3,4,none⟩, "Some(2)"), (⟨5,60,none⟩, "")], .maybeIncorrect⟩
        = gs.sourceCallsite :=
  claim_c9 cxC5 armC5
    ⟨⟨10,60,none⟩, "redundant guard",
      [(⟨3,4,none⟩, "Some(2)"), (⟨5,60,none⟩, "")], .maybeIncorrect⟩
    (by decide)

end RedundantGuards
